import Mathlib

/-!
Verification of the slate core editing model: the `State` record of
`src/lib/models/state.js` together with the `Document`, `Selection` and `History`
collaborators it consumes.  Only `state.js` is part of the repository; the
collaborators are modelled from the specification's contracts (sections 3, 4.1
and 4.2), and every such definition is marked `Modelled from the spec:`.
-/

set_option linter.unusedVariables false

namespace Slate

/-- Character range of a Text node: a run of text content together with its set of
marks (spec section 3: each range is text content plus a set of marks). -/
structure TextRange where
  text : String
  marks : List String
deriving Repr, DecidableEq

/-- Modelled from the spec: a document tree node (section 3) is either a
text-bearing leaf holding an ordered sequence of marked text ranges, or a
container holding an ordered sequence of child nodes.  Each node carries a key,
unique within a document. -/
inductive Node where
  | text (key : Nat) (ranges : List TextRange)
  | container (key : Nat) (nodes : List Node)
deriving Repr

/-- Key of a node. -/
def Node.key : Node → Nat
  | .text k _ => k
  | .container k _ => k

/-- Child list of a node, the source's immutable `nodes` field: containers hold
their children, text leaves hold none. -/
def Node.nodes : Node → List Node
  | .text _ _ => []
  | .container _ ns => ns

/-- Concatenated text content of a list of ranges. -/
def rangesText : List TextRange → String
  | [] => ""
  | r :: rs => r.text ++ rangesText rs

mutual

/-- Full text content of a node, child texts concatenated in order. -/
def Node.fullText : Node → String
  | .text _ rs => rangesText rs
  | .container _ ns => Node.forestFullText ns

/-- Full text content of a forest of nodes. -/
def Node.forestFullText : List Node → String
  | [] => ""
  | n :: ns => Node.fullText n ++ Node.forestFullText ns

end

/-- Total character length of a node's text content. -/
def Node.textLength (n : Node) : Nat := n.fullText.length

mutual

/-- Modelled from the spec: look a node up by key anywhere in a subtree
(`getNode`, section 4.1). -/
def Node.findByKey (key : Nat) : Node → Option Node
  | .text k rs => if k == key then some (.text k rs) else none
  | .container k ns =>
    if k == key then some (.container k ns) else Node.findByKeyInForest key ns

/-- Modelled from the spec: look a node up by key in a forest of subtrees. -/
def Node.findByKeyInForest (key : Nat) : List Node → Option Node
  | [] => none
  | n :: ns =>
    match Node.findByKey key n with
    | some r => some r
    | none => Node.findByKeyInForest key ns

end

mutual

/-- Modelled from the spec: find the container node whose children include the
key, searching a subtree; absent when no container in the subtree has a child
with that key. -/
def Node.findParent (key : Nat) : Node → Option Node
  | .text _ _ => none
  | .container k cs =>
    if cs.any (fun c => c.key == key) then some (.container k cs)
    else Node.findParentInForest key cs

/-- Modelled from the spec: find the container node whose children include the
key, searching a forest; absent when the key belongs to a top-level node or is
not in the tree. -/
def Node.findParentInForest (key : Nat) : List Node → Option Node
  | [] => none
  | n :: ns =>
    match Node.findParent key n with
    | some r => some r
    | none => Node.findParentInForest key ns

end

/-- Previous element of the sibling list relative to the node with the key. -/
def Node.prevInSiblings (key : Nat) : List Node → Option Node
  | a :: b :: rest => if b.key == key then some a else Node.prevInSiblings key (b :: rest)
  | _ => none

/-- Next element of the sibling list relative to the node with the key. -/
def Node.nextInSiblings (key : Nat) : List Node → Option Node
  | a :: b :: rest => if a.key == key then some b else Node.nextInSiblings key (b :: rest)
  | _ => none

mutual

/-- Last text leaf of a subtree in document order. -/
def Node.lastText : Node → Option Node
  | .text k rs => some (.text k rs)
  | .container _ ns => Node.lastTextInForest ns

/-- Last text leaf of a forest in document order. -/
def Node.lastTextInForest : List Node → Option Node
  | [] => none
  | n :: ns =>
    match Node.lastTextInForest ns with
    | some r => some r
    | none => Node.lastText n

end

mutual

/-- Keys of the text leaves of a subtree, in document order. -/
def Node.textKeys : Node → List Nat
  | .text k _ => [k]
  | .container _ ns => Node.textKeysForest ns

/-- Keys of the text leaves of a forest, in document order. -/
def Node.textKeysForest : List Node → List Nat
  | [] => []
  | n :: ns => Node.textKeys n ++ Node.textKeysForest ns

end

mutual

/-- Largest key occurring in a subtree, used to mint fresh keys. -/
def Node.maxKey : Node → Nat
  | .text k _ => k
  | .container k ns => max k (Node.maxKeyForest ns)

/-- Largest key occurring in a forest. -/
def Node.maxKeyForest : List Node → Nat
  | [] => 0
  | n :: ns => max (Node.maxKey n) (Node.maxKeyForest ns)

end

/-- Document: the tree root, always a container (spec section 3), holding the
top-level nodes. -/
structure Document where
  nodes : List Node
deriving Repr

/-- Empty document, the default document of a State. -/
def Document.empty : Document := ⟨[]⟩

/-- Modelled from the spec: `getNode(key)` resolves a key to the node currently
in the tree, or absent when no such node exists (section 4.1). -/
def Document.getNode (doc : Document) (key : Nat) : Option Node :=
  Node.findByKeyInForest key doc.nodes

/-- Modelled from the spec: `getParentNode(node)` is the container whose
children include the node, or absent when none exists. -/
def Document.getParentNode (doc : Document) (node : Node) : Option Node :=
  Node.findParentInForest node.key doc.nodes

/-- Modelled from the spec: the sibling list of a node — the children of its
parent container, or the root's top-level list when the node sits directly
under the root. -/
def Document.siblingsOf (doc : Document) (node : Node) : List Node :=
  if doc.nodes.any (fun c => c.key == node.key) then doc.nodes
  else
    match Node.findParentInForest node.key doc.nodes with
    | some p => p.nodes
    | none => []

/-- Modelled from the spec: `getPreviousNode(node)` — the previous sibling
relative to sibling order under the same parent, or absent if none exists
(section 4.1). -/
def Document.getPreviousNode (doc : Document) (node : Node) : Option Node :=
  Node.prevInSiblings node.key (doc.siblingsOf node)

/-- Modelled from the spec: `getNextNode(node)` — the next sibling relative to
sibling order under the same parent, or absent if none exists (section 4.1). -/
def Document.getNextNode (doc : Document) (node : Node) : Option Node :=
  Node.nextInSiblings node.key (doc.siblingsOf node)

/-- Last text leaf of the document in document order. -/
def Document.lastTextNode (doc : Document) : Option Node :=
  Node.lastTextInForest doc.nodes

/-- Full text content of the document. -/
def Document.fullText (doc : Document) : String :=
  Node.forestFullText doc.nodes

/-- Modelled from the spec: a Selection is two endpoints, each a node key plus a
character offset within that node's text (section 3).  Directionality is
modelled forward: the anchor is the start endpoint, the focus the end
endpoint. -/
structure Selection where
  anchorKey : Nat
  anchorOffset : Nat
  focusKey : Nat
  focusOffset : Nat
deriving Repr, DecidableEq

/-- Empty selection, the default selection of a State; both endpoints unset,
modelled as key 0 offset 0. -/
def Selection.empty : Selection := ⟨0, 0, 0, 0⟩

/-- Collapsed means the two endpoints coincide (spec section 3). -/
def Selection.isCollapsed (s : Selection) : Bool :=
  s.anchorKey == s.focusKey && s.anchorOffset == s.focusOffset

/-- Expanded is the negation of collapsed. -/
def Selection.isExpanded (s : Selection) : Bool := !s.isCollapsed

/-- Key of the start endpoint. -/
def Selection.startKey (s : Selection) : Nat := s.anchorKey

/-- Offset of the start endpoint. -/
def Selection.startOffset (s : Selection) : Nat := s.anchorOffset

/-- Modelled from the spec: collapse the selection onto its start endpoint. -/
def Selection.moveToStart (s : Selection) : Selection :=
  ⟨s.anchorKey, s.anchorOffset, s.anchorKey, s.anchorOffset⟩

/-- Modelled from the spec: move both endpoints forward by n characters. -/
def Selection.moveForward (s : Selection) (n : Nat) : Selection :=
  ⟨s.anchorKey, s.anchorOffset + n, s.focusKey, s.focusOffset + n⟩

/-- Modelled from the spec: move both endpoints backward by n characters,
clamping at offset 0 (truncated subtraction). -/
def Selection.moveBackward (s : Selection) (n : Nat) : Selection :=
  ⟨s.anchorKey, s.anchorOffset - n, s.focusKey, s.focusOffset - n⟩

/-- Modelled from the spec: collapse the selection to offset 0 of the node. -/
def Selection.moveToStartOf (s : Selection) (node : Node) : Selection :=
  ⟨node.key, 0, node.key, 0⟩

/-- Modelled from the spec: collapse the selection to the final offset of the
node. -/
def Selection.moveToEndOf (s : Selection) (node : Node) : Selection :=
  ⟨node.key, node.textLength, node.key, node.textLength⟩

/-- Modelled from the spec: the selection is at the start of the node when it is
collapsed at offset 0 of that node. -/
def Selection.isAtStartOf (s : Selection) (node : Node) : Bool :=
  s.isCollapsed && s.startKey == node.key && s.startOffset == 0

/-- Modelled from the spec: the selection is at the end of the whole document
when it is collapsed at the final offset of the document's last text leaf. -/
def Selection.isAtEndOf (s : Selection) (doc : Document) : Bool :=
  match doc.lastTextNode with
  | some t => s.isCollapsed && s.startKey == t.key && s.startOffset == t.textLength
  | none => false

/-- Prefix of a range list covering the first k characters, cutting a range at
the boundary when needed. -/
def takeRanges : List TextRange → Nat → List TextRange
  | _, 0 => []
  | [], _ => []
  | r :: rs, k =>
    if k < r.text.length then [⟨r.text.take k, r.marks⟩]
    else r :: takeRanges rs (k - r.text.length)

/-- Remainder of a range list after the first k characters, cutting a range at
the boundary when needed. -/
def dropRanges : List TextRange → Nat → List TextRange
  | rs, 0 => rs
  | [], _ => []
  | r :: rs, k =>
    if k < r.text.length then ⟨r.text.drop k, r.marks⟩ :: rs
    else dropRanges rs (k - r.text.length)

/-- Splice a plain text run into a range list at character offset k. -/
def insertIntoRanges (rs : List TextRange) (k : Nat) (t : String) : List TextRange :=
  takeRanges rs k ++ [⟨t, []⟩] ++ dropRanges rs k

mutual

/-- Rewrite the ranges of the text node with the key, leaving the rest of the
subtree unchanged. -/
def Node.mapRanges (key : Nat) (f : List TextRange → List TextRange) : Node → Node
  | .text k rs => if k == key then .text k (f rs) else .text k rs
  | .container k ns => .container k (Node.mapRangesForest key f ns)

/-- Rewrite the ranges of the text node with the key anywhere in a forest. -/
def Node.mapRangesForest (key : Nat) (f : List TextRange → List TextRange) :
    List Node → List Node
  | [] => []
  | n :: ns => Node.mapRanges key f n :: Node.mapRangesForest key f ns

end

mutual

/-- Remove every text leaf whose key is listed from a subtree, keeping the
container shape. -/
def Node.removeTexts (doomed : List Nat) : Node → Node
  | .text k rs => .text k rs
  | .container k cs => .container k (removeTextNodes doomed cs)

/-- Remove every text leaf whose key is listed from a forest, keeping the
container shape. -/
def removeTextNodes (doomed : List Nat) : List Node → List Node
  | [] => []
  | n :: ns =>
    match n with
    | .text k _ =>
      if doomed.contains k then removeTextNodes doomed ns
      else n :: removeTextNodes doomed ns
    | .container _ _ => Node.removeTexts doomed n :: removeTextNodes doomed ns

end

/-- Element of the key list immediately before the given key. -/
def keyBefore : List Nat → Nat → Option Nat
  | a :: b :: rest, key => if b == key then some a else keyBefore (b :: rest) key
  | _, _ => none

/-- Keys of the list strictly between the first occurrence of a and the first
following occurrence of b. -/
def keysStrictlyBetween (l : List Nat) (a b : Nat) : List Nat :=
  ((l.dropWhile (fun k => k != a)).drop 1).takeWhile (fun k => k != b)

/-- Modelled from the spec: `deleteAtRange(range)` removes all content spanned by
the range; when the range spans multiple nodes the surviving fragments merge
into one node at the range's start position, and the other spanned text leaves
are removed (section 4.1). -/
def Document.deleteAtRange (doc : Document) (range : Selection) : Document :=
  if range.isCollapsed then doc
  else if range.anchorKey == range.focusKey then
    ⟨Node.mapRangesForest range.anchorKey
      (fun rs => takeRanges rs range.anchorOffset ++ dropRanges rs range.focusOffset)
      doc.nodes⟩
  else
    let ks := Node.textKeysForest doc.nodes
    let doomed := range.focusKey :: keysStrictlyBetween ks range.anchorKey range.focusKey
    let endSuffix :=
      match Node.findByKeyInForest range.focusKey doc.nodes with
      | some (.text _ rs) => dropRanges rs range.focusOffset
      | _ => []
    let merged := Node.mapRangesForest range.anchorKey
      (fun rs => takeRanges rs range.anchorOffset ++ endSuffix) doc.nodes
    ⟨removeTextNodes doomed merged⟩

/-- Modelled from the spec: `deleteForwardAtRange(range, n)` removes n characters
after the range's reference point; an expanded range first removes the spanned
content (section 4.1).  The count defaults to one character when a caller omits
it. -/
def Document.deleteForwardAtRange (doc : Document) (range : Selection) (n : Nat := 1) :
    Document :=
  if range.isExpanded then doc.deleteAtRange range
  else
    ⟨Node.mapRangesForest range.startKey
      (fun rs => takeRanges rs range.startOffset ++ dropRanges rs (range.startOffset + n))
      doc.nodes⟩

/-- Modelled from the spec: `deleteBackwardAtRange(range)` removes the character
before the range's reference point (the spec's contract gives this operation no
count argument); an expanded range first removes the spanned content.  At
offset 0 the preceding character lives in the previous text leaf in document
order, so the node's content merges backward into that leaf; with no previous
leaf the document is left unchanged. -/
def Document.deleteBackwardAtRange (doc : Document) (range : Selection) : Document :=
  if range.isExpanded then doc.deleteAtRange range
  else if range.startOffset == 0 then
    match keyBefore (Node.textKeysForest doc.nodes) range.startKey with
    | none => doc
    | some pk =>
      let curRanges :=
        match Node.findByKeyInForest range.startKey doc.nodes with
        | some (.text _ rs) => rs
        | _ => []
      let merged := Node.mapRangesForest pk (fun rs => rs ++ curRanges) doc.nodes
      ⟨removeTextNodes [range.startKey] merged⟩
  else
    ⟨Node.mapRangesForest range.startKey
      (fun rs => takeRanges rs (range.startOffset - 1) ++ dropRanges rs range.startOffset)
      doc.nodes⟩

/-- Modelled from the spec: `insertAtRange(range, text)` inserts the text at the
range's position, after first removing the spanned content when the range is
expanded (section 4.1).  The Document source is not part of the repository; the
State source calls this operation `insertTextAtRange`, while the spec's Document
contract names it `insertAtRange` — both names are bound to this one
operation. -/
def Document.insertTextAtRange (doc : Document) (range : Selection) (text : String) :
    Document :=
  let d := if range.isExpanded then doc.deleteAtRange range else doc
  ⟨Node.mapRangesForest range.startKey
    (fun rs => insertIntoRanges rs range.startOffset text) d.nodes⟩

/-- Spec name of the text-insertion operation; see `Document.insertTextAtRange`. -/
def Document.insertAtRange : Document → Selection → String → Document :=
  Document.insertTextAtRange

/-- Whether the node is the text leaf with the given key. -/
def isTextWithKey (key : Nat) : Node → Bool
  | .text k _ => k == key
  | _ => false

mutual

/-- Split step inside one subtree: descend into containers looking for the one
that directly holds the target text leaf. -/
def Node.splitInside (key offset ck tk : Nat) : Node → Node
  | .text k rs => .text k rs
  | .container k cs => .container k (splitForest key offset ck tk cs)

/-- Modelled from the spec: split the container holding the text leaf with the
key into two sibling containers.  The leading container keeps its key, the
earlier siblings and the leaf cut to the first `offset` characters; the trailing
container is fresh (key ck), its first child a fresh text leaf (key tk) holding
the rest, followed by the later siblings. -/
def splitForest (key offset ck tk : Nat) : List Node → List Node
  | [] => []
  | n :: ns =>
    match n with
    | .text _ _ => n :: splitForest key offset ck tk ns
    | .container k cs =>
      if cs.any (isTextWithKey key) then
        let before := cs.takeWhile (fun c => !isTextWithKey key c)
        let rest := cs.dropWhile (fun c => !isTextWithKey key c)
        let target : List TextRange :=
          match rest with
          | .text _ rs :: _ => rs
          | _ => []
        let later := rest.drop 1
        .container k (before ++ [.text key (takeRanges target offset)]) ::
          .container ck (.text tk (dropRanges target offset) :: later) :: ns
      else Node.splitInside key offset ck tk n :: splitForest key offset ck tk ns

end

/-- Modelled from the spec: `splitAtRange(range)` splits the container node
holding the range's position into two sibling containers at that position; the
content is split between the leading and trailing fragments (section 4.1).
Fresh keys for the trailing container and its text leaf are minted above the
largest key in the tree. -/
def Document.splitAtRange (doc : Document) (range : Selection) : Document :=
  let m := Node.maxKeyForest doc.nodes
  ⟨splitForest range.startKey range.startOffset (m + 1) (m + 2) doc.nodes⟩

/-- Snapshot held by the history stacks: a document together with its selection.
The spec stores prior State snapshots or equivalent records (section 3);
document-selection pairs capture what an undo must restore while avoiding the
cyclic State-inside-History dependency. -/
structure Snapshot where
  document : Document
  selection : Selection
deriving Repr

/-- History record of the source: two stacks, undos and redos, both empty by
default. -/
structure History where
  undos : List Snapshot := []
  redos : List Snapshot := []
deriving Repr

/-- Empty history: two empty stacks. -/
def History.empty : History := ⟨[], []⟩

/-- State record of the source: document, selection, history and the native
input-origin flag, with the source's default properties. -/
structure State where
  document : Document := Document.empty
  selection : Selection := Selection.empty
  history : History := History.empty
  isNative : Bool := true
deriving Repr

/-- Optional field overrides accepted by the State factory. -/
structure StateProperties where
  document : Option Document := none
  selection : Option Selection := none
  history : Option History := none
  isNative : Option Bool := none

/-- Source `State.create(properties)`: build a State from the overrides, any
field not supplied falling back to the default properties (empty document,
empty selection, empty history, isNative true). -/
def State.create (properties : StateProperties := {}) : State :=
  { document := properties.document.getD Document.empty,
    selection := properties.selection.getD Selection.empty,
    history := properties.history.getD History.empty,
    isNative := properties.isNative.getD true }

/-- Source `State.delete()` (state.js lines 72 to 84): when the selection is
collapsed there is nothing to do; otherwise delete the range and collapse the
selection to its start, merging both back into the state. -/
def State.delete (s : State) : State :=
  if s.selection.isCollapsed then s
  else
    { s with
      document := s.document.deleteAtRange s.selection,
      selection := s.selection.moveToStart }

/-- Source `State.deleteBackward(n)` (state.js lines 93 to 121): the post-edit
selection is computed before mutating, then `deleteBackwardAtRange` runs at the
original selection.  The fallible dereferences of the source — `isAtStartOf` on
a null start node, and `.nodes.first()` through a null result of
`getPreviousNode(parent)` or `getParentNode` — surface here as `none`, the
TypeError the JS code would throw. -/
def State.deleteBackward (s : State) (n : Nat := 1) : Option State :=
  let document := s.document
  let selection := s.selection
  if selection.isExpanded then
    some
      { s with
        document := document.deleteBackwardAtRange selection,
        selection := selection.moveToStart }
  else
    match document.getNode selection.startKey with
    | none => none
    | some startNode =>
      if selection.isAtStartOf startNode then
        match document.getParentNode startNode with
        | none => none
        | some parent =>
          match document.getPreviousNode parent with
          | none => none
          | some prevSibling =>
            match prevSibling.nodes.head? with
            | none => none
            | some previous =>
              some
                { s with
                  document := document.deleteBackwardAtRange selection,
                  selection := selection.moveToEndOf previous }
      else if !(selection.isAtEndOf document) then
        some
          { s with
            document := document.deleteBackwardAtRange selection,
            selection := selection.moveBackward n }
      else
        some { s with document := document.deleteBackwardAtRange selection }

/-- Source `State.deleteForward(n)` (state.js lines 130 to 145): the post-edit
selection collapses an expanded selection to its start and otherwise stays
unchanged.  The source calls `document.deleteForwardAtRange(selection)` without
the count, so the document operation runs at its default count of one character
and the parameter n is never consulted. -/
def State.deleteForward (s : State) (n : Nat := 1) : State :=
  let after := if s.selection.isExpanded then s.selection.moveToStart else s.selection
  { s with
    document := s.document.deleteForwardAtRange s.selection,
    selection := after }

/-- Source `State.insertText(text)` (state.js lines 154 to 163): insert the text
at the selection and move the selection forward by the text's character
length. -/
def State.insertText (s : State) (text : String) : State :=
  { s with
    document := s.document.insertTextAtRange s.selection text,
    selection := s.selection.moveForward text.length }

/-- Source `State.split()` (state.js lines 171 to 189): split the document at
the selection, then resolve the original start key in the new document and move
the cursor to the start of the first child of the next sibling of its parent.
The fallible dereferences of the source surface here as `none`, the TypeError
the JS code would throw. -/
def State.split (s : State) : Option State :=
  let document := s.document.splitAtRange s.selection
  match document.getNode s.selection.startKey with
  | none => none
  | some startNode =>
    match document.getParentNode startNode with
    | none => none
    | some parent =>
      match document.getNextNode parent with
      | none => none
      | some next =>
        match next.nodes.head? with
        | none => none
        | some textNode =>
          some
            { s with
              document := document,
              selection := s.selection.moveToStartOf textNode }

/-- Source document-like method `deleteAtRange` (state.js lines 197 to 203):
apply the same-named Document operation to this document with the caller's
arguments and merge only the document back. -/
def State.deleteAtRange (s : State) (range : Selection) : State :=
  { s with document := s.document.deleteAtRange range }

/-- Source document-like method `deleteBackwardAtRange` (state.js lines 197 to
203): apply the same-named Document operation to this document with the
caller's arguments and merge only the document back. -/
def State.deleteBackwardAtRange (s : State) (range : Selection) : State :=
  { s with document := s.document.deleteBackwardAtRange range }

/-- Source document-like method `deleteForwardAtRange` (state.js lines 197 to
203): apply the same-named Document operation to this document with the
caller's arguments and merge only the document back. -/
def State.deleteForwardAtRange (s : State) (range : Selection) (n : Nat := 1) : State :=
  { s with document := s.document.deleteForwardAtRange range n }

/-- Source document-like method `insertAtRange` (state.js lines 197 to 203):
apply the same-named Document operation to this document with the caller's
arguments and merge only the document back. -/
def State.insertAtRange (s : State) (range : Selection) (text : String) : State :=
  { s with document := s.document.insertAtRange range text }

/-- Source document-like method `splitAtRange` (state.js lines 197 to 203):
apply the same-named Document operation to this document with the caller's
arguments and merge only the document back. -/
def State.splitAtRange (s : State) (range : Selection) : State :=
  { s with document := s.document.splitAtRange range }

example : Node.findByKeyInForest 2 [.container 1 [.text 2 [⟨"hi", []⟩]]]
    = some (.text 2 [⟨"hi", []⟩]) := rfl

example : Node.findParentInForest 2 [.container 1 [.text 2 [⟨"hi", []⟩]]]
    = some (.container 1 [.text 2 [⟨"hi", []⟩]]) := rfl

example : Node.maxKeyForest [.container 1 [.text 2 [⟨"hi", []⟩]]] = 2 := rfl

example :
    (Selection.mk 2 0 2 0).isAtEndOf ⟨[.container 1 [.text 2 [⟨"hi", []⟩]]]⟩ = false := rfl

example :
    (Selection.mk 2 2 2 2).isAtEndOf ⟨[.container 1 [.text 2 [⟨"hi", []⟩]]]⟩ = true := rfl


example : removeTextNodes [2] [.container 1 [.text 2 [⟨"hi", []⟩], .text 3 [⟨"yo", []⟩]]]
    = [.container 1 [.text 3 [⟨"yo", []⟩]]] := rfl

example : splitForest 2 5 3 4 [.container 1 [.text 2 [⟨"HelloWorld", []⟩]]]
    = [.container 1 [.text 2 [⟨"Hello", []⟩]], .container 3 [.text 4 [⟨"World", []⟩]]] := rfl

example : takeRanges [⟨"Bar", []⟩] 1 = [⟨"B", []⟩] := rfl
example : dropRanges [⟨"Bar", []⟩] 1 = [⟨"ar", []⟩] := rfl

example : Document.deleteBackwardAtRange ⟨[.container 1 [.text 2 [⟨"Foo", []⟩]], .container 3 [.text 4 [⟨"Bar", []⟩]]]⟩ ⟨4, 1, 4, 1⟩
    = ⟨[.container 1 [.text 2 [⟨"Foo", []⟩]], .container 3 [.text 4 [⟨"ar", []⟩]]]⟩ := rfl

example : Document.deleteBackwardAtRange ⟨[.container 1 [.text 2 [⟨"Foo", []⟩]], .container 3 [.text 4 [⟨"Bar", []⟩]]]⟩ ⟨4, 0, 4, 0⟩
    = ⟨[.container 1 [.text 2 [⟨"Foo", []⟩, ⟨"Bar", []⟩]], .container 3 []]⟩ := rfl

example : Document.splitAtRange ⟨[.container 1 [.text 2 [⟨"HelloWorld", []⟩]]]⟩ ⟨2, 5, 2, 5⟩
    = ⟨[.container 1 [.text 2 [⟨"Hello", []⟩]], .container 3 [.text 4 [⟨"World", []⟩]]]⟩ := rfl

example : Document.insertTextAtRange ⟨[.container 1 [.text 2 [⟨"Hello World", []⟩]]]⟩ ⟨2, 5, 2, 5⟩ " there"
    = ⟨[.container 1 [.text 2 [⟨"Hello", []⟩, ⟨" there", []⟩, ⟨" World", []⟩]]]⟩ := rfl

example : Document.deleteAtRange ⟨[.container 1 [.text 2 [⟨"abcdef", []⟩]]]⟩ ⟨2, 1, 2, 4⟩
    = ⟨[.container 1 [.text 2 [⟨"a", []⟩, ⟨"ef", []⟩]]]⟩ := rfl

example : Document.deleteAtRange ⟨[.container 1 [.text 2 [⟨"abc", []⟩], .text 3 [⟨"def", []⟩], .text 4 [⟨"ghi", []⟩]]]⟩ ⟨2, 1, 4, 1⟩
    = ⟨[.container 1 [.text 2 [⟨"a", []⟩, ⟨"hi", []⟩]]]⟩ := rfl

/-- Two-block example document: a block holding Foo followed by a block holding
Bar. -/
def fooBarDoc : Document :=
  ⟨[.container 1 [.text 2 [⟨"Foo", []⟩]], .container 3 [.text 4 [⟨"Bar", []⟩]]]⟩

/-- Characterization of a successful deleteBackward: the document always comes
from deleteBackwardAtRange at the original selection, history and the native
flag are untouched, and the selection follows the source's four-way
precedence. -/
theorem deleteBackward_characterization (s : State) (n : Nat) (t : State)
    (h : s.deleteBackward n = some t) :
    t.document = s.document.deleteBackwardAtRange s.selection ∧
    t.history = s.history ∧ t.isNative = s.isNative ∧
    ((s.selection.isExpanded = true ∧ t.selection = s.selection.moveToStart) ∨
     (s.selection.isExpanded = false ∧
       ∃ startNode parent prevSibling previous,
         s.document.getNode s.selection.startKey = some startNode ∧
         s.selection.isAtStartOf startNode = true ∧
         s.document.getParentNode startNode = some parent ∧
         s.document.getPreviousNode parent = some prevSibling ∧
         prevSibling.nodes.head? = some previous ∧
         t.selection = s.selection.moveToEndOf previous) ∨
     (s.selection.isExpanded = false ∧
       ∃ startNode,
         s.document.getNode s.selection.startKey = some startNode ∧
         s.selection.isAtStartOf startNode = false ∧
         s.selection.isAtEndOf s.document = false ∧
         t.selection = s.selection.moveBackward n) ∨
     (s.selection.isExpanded = false ∧
       ∃ startNode,
         s.document.getNode s.selection.startKey = some startNode ∧
         s.selection.isAtStartOf startNode = false ∧
         s.selection.isAtEndOf s.document = true ∧
         t.selection = s.selection)) := by
  cases hexp : s.selection.isExpanded with
  | true =>
    simp only [State.deleteBackward, hexp, if_true, Option.some.injEq] at h
    subst h
    exact ⟨rfl, rfl, rfl, Or.inl ⟨rfl, rfl⟩⟩
  | false =>
    rcases hget : s.document.getNode s.selection.startKey with _ | startNode
    · simp [State.deleteBackward, hexp, hget] at h
    · cases hstart : s.selection.isAtStartOf startNode with
      | true =>
        rcases hpar : s.document.getParentNode startNode with _ | parent
        · simp [State.deleteBackward, hexp, hget, hstart, hpar] at h
        · rcases hprev : s.document.getPreviousNode parent with _ | prevSibling
          · simp [State.deleteBackward, hexp, hget, hstart, hpar, hprev] at h
          · rcases hhead : prevSibling.nodes.head? with _ | previous
            · simp [State.deleteBackward, hexp, hget, hstart, hpar, hprev, hhead] at h
            · simp only [State.deleteBackward, hexp, hget, hstart, hpar, hprev, hhead,
                Bool.false_eq_true, if_false, if_true, Option.some.injEq] at h
              subst h
              exact ⟨rfl, rfl, rfl, Or.inr (Or.inl
                ⟨rfl, startNode, parent, prevSibling, previous,
                 rfl, hstart, hpar, hprev, hhead, rfl⟩)⟩
      | false =>
        cases hend : s.selection.isAtEndOf s.document with
        | false =>
          simp only [State.deleteBackward, hexp, hget, hstart, hend,
            Bool.false_eq_true, Bool.not_false, if_false, if_true, Option.some.injEq] at h
          subst h
          exact ⟨rfl, rfl, rfl, Or.inr (Or.inr (Or.inl
            ⟨rfl, startNode, rfl, hstart, rfl, rfl⟩))⟩
        | true =>
          simp only [State.deleteBackward, hexp, hget, hstart, hend,
            Bool.false_eq_true, Bool.not_true, if_false, Option.some.injEq] at h
          subst h
          exact ⟨rfl, rfl, rfl, Or.inr (Or.inr (Or.inr
            ⟨rfl, startNode, rfl, hstart, rfl, rfl⟩))⟩

/-- Characterization of a successful split: the document is splitAtRange at the
selection, history and the native flag are untouched, and the selection is
collapsed at offset 0 of the first child of the next sibling of the parent of
the node resolved at the original start key in the new document. -/
theorem split_characterization (s : State) (t : State) (h : s.split = some t) :
    t.document = s.document.splitAtRange s.selection ∧
    t.history = s.history ∧ t.isNative = s.isNative ∧
    ∃ startNode parent next textNode,
      (s.document.splitAtRange s.selection).getNode s.selection.startKey = some startNode ∧
      (s.document.splitAtRange s.selection).getParentNode startNode = some parent ∧
      (s.document.splitAtRange s.selection).getNextNode parent = some next ∧
      next.nodes.head? = some textNode ∧
      t.selection = s.selection.moveToStartOf textNode ∧
      t.selection.isCollapsed = true ∧
      t.selection.anchorKey = textNode.key ∧
      t.selection.anchorOffset = 0 := by
  rcases hget : (s.document.splitAtRange s.selection).getNode s.selection.startKey
    with _ | startNode
  · simp [State.split, hget] at h
  · rcases hpar : (s.document.splitAtRange s.selection).getParentNode startNode
      with _ | parent
    · simp [State.split, hget, hpar] at h
    · rcases hnext : (s.document.splitAtRange s.selection).getNextNode parent
        with _ | next
      · simp [State.split, hget, hpar, hnext] at h
      · rcases hhead : next.nodes.head? with _ | textNode
        · simp [State.split, hget, hpar, hnext, hhead] at h
        · simp only [State.split, hget, hpar, hnext, hhead, Option.some.injEq] at h
          subst h
          refine ⟨rfl, rfl, rfl, startNode, parent, next, textNode,
            rfl, hpar, hnext, hhead, rfl, ?_, rfl, rfl⟩
          simp [Selection.isCollapsed, Selection.moveToStartOf]

/-- C1: for every State, deleteBackward(n) computes the post-edit selection
`after` by the source precedence — moveToStart when expanded; else the end of
the first child of the previous sibling of the start node's parent when the
collapsed cursor is at the start of its node; else moveBackward(n) when not at
the end of the document; else the original selection — and the returned State
has document deleteBackwardAtRange(original selection) and selection `after`. -/
theorem c1_deleteBackward_spec (s : State) (n : Nat) (t : State)
    (h : s.deleteBackward n = some t) :
    t.document = s.document.deleteBackwardAtRange s.selection ∧
    ((s.selection.isExpanded = true ∧ t.selection = s.selection.moveToStart) ∨
     (s.selection.isExpanded = false ∧
       ∃ startNode parent prevSibling previous,
         s.document.getNode s.selection.startKey = some startNode ∧
         s.selection.isAtStartOf startNode = true ∧
         s.document.getParentNode startNode = some parent ∧
         s.document.getPreviousNode parent = some prevSibling ∧
         prevSibling.nodes.head? = some previous ∧
         t.selection = s.selection.moveToEndOf previous) ∨
     (s.selection.isExpanded = false ∧
       ∃ startNode,
         s.document.getNode s.selection.startKey = some startNode ∧
         s.selection.isAtStartOf startNode = false ∧
         s.selection.isAtEndOf s.document = false ∧
         t.selection = s.selection.moveBackward n) ∨
     (s.selection.isExpanded = false ∧
       ∃ startNode,
         s.document.getNode s.selection.startKey = some startNode ∧
         s.selection.isAtStartOf startNode = false ∧
         s.selection.isAtEndOf s.document = true ∧
         t.selection = s.selection)) :=
  ⟨(deleteBackward_characterization s n t h).1,
   (deleteBackward_characterization s n t h).2.2.2⟩

/-- Example state for C1: cursor collapsed at offset 1 of Bar, where
deleteBackward takes the moveBackward branch. -/
def c1State : State := { document := fooBarDoc, selection := ⟨4, 1, 4, 1⟩ }

/-- Expected result of deleteBackward on the C1 example state. -/
def c1After : State :=
  { document := ⟨[.container 1 [.text 2 [⟨"Foo", []⟩]], .container 3 [.text 4 [⟨"ar", []⟩]]]⟩,
    selection := ⟨4, 0, 4, 0⟩ }

/-- Witness for C1 at a concrete state. -/
theorem c1_witness :
    c1State.deleteBackward 1 = some c1After ∧
    c1After.document = c1State.document.deleteBackwardAtRange c1State.selection :=
  ⟨rfl, (c1_deleteBackward_spec c1State 1 c1After rfl).1⟩

/-- C2: insertText(text) returns a State whose document is the Document
operation insertAtRange applied at the current selection with the text, and
whose selection is the current selection moved forward by the text's character
length. -/
theorem c2_insertText_spec (s : State) (text : String) :
    (s.insertText text).document = s.document.insertAtRange s.selection text ∧
    (s.insertText text).selection = s.selection.moveForward text.length :=
  ⟨rfl, rfl⟩

/-- Example state for C3: a single block holding abc, cursor collapsed at
offset 0 of the text. -/
def c3State : State :=
  { document := ⟨[.container 1 [.text 2 [⟨"abc", []⟩]]]⟩, selection := ⟨2, 0, 2, 0⟩ }

/-- Counterexample to C3 as stated: with n = 2 the document produced by
deleteForward is not deleteForwardAtRange(selection, 2), because the source
passes only the selection and the operation runs at its default count of one. -/
theorem c3_counterexample :
    (c3State.deleteForward 2).document ≠
      Document.deleteForwardAtRange c3State.document c3State.selection 2 := by
  intro h
  have hT : ("bc" : String) = "c" := congrArg Document.fullText h
  exact absurd hT (by decide)

/-- C3 amended: deleteForward(n) applies deleteForwardAtRange with only the
current selection — the count n is accepted but never passed on, so the
operation runs at its default count of one character — and sets the resulting
selection to moveToStart when the selection is expanded and to the unchanged
original selection otherwise. -/
theorem c3_deleteForward_spec (s : State) (n : Nat) :
    (s.deleteForward n).document = s.document.deleteForwardAtRange s.selection 1 ∧
    (s.deleteForward n).selection =
      (if s.selection.isExpanded then s.selection.moveToStart else s.selection) :=
  ⟨rfl, rfl⟩

/-- Example state for C4: a single block holding Foo, cursor collapsed at the
very start of the document's first (and only) block. -/
def c4State : State :=
  { document := ⟨[.container 1 [.text 2 [⟨"Foo", []⟩]]]⟩, selection := ⟨2, 0, 2, 0⟩ }

/-- C4: contrary to the claim, deleteBackward at the start of the first block
does not degenerate to a no-op: the start node resolves, its parent resolves,
the parent has no previous sibling, and the source dereferences that absent
sibling, so the call fails instead of returning the state unchanged. -/
theorem c4_deleteBackward_first_block_fails :
    c4State.deleteBackward 1 = none ∧
    c4State.selection.isCollapsed = true ∧
    c4State.document.getNode c4State.selection.startKey = some (.text 2 [⟨"Foo", []⟩]) ∧
    c4State.document.getParentNode (.text 2 [⟨"Foo", []⟩]) =
      some (.container 1 [.text 2 [⟨"Foo", []⟩]]) ∧
    c4State.document.getPreviousNode (.container 1 [.text 2 [⟨"Foo", []⟩]]) = none :=
  ⟨rfl, rfl, rfl, rfl, rfl⟩

/-- C5: split() returns a State whose document is splitAtRange(selection) and
whose selection is found by resolving the original start key in the new
document, taking the parent, its next sibling, that sibling's first child, and
collapsing the selection at offset 0 of that child. -/
theorem c5_split_spec (s : State) (t : State) (h : s.split = some t) :
    t.document = s.document.splitAtRange s.selection ∧
    ∃ startNode parent next textNode,
      (s.document.splitAtRange s.selection).getNode s.selection.startKey = some startNode ∧
      (s.document.splitAtRange s.selection).getParentNode startNode = some parent ∧
      (s.document.splitAtRange s.selection).getNextNode parent = some next ∧
      next.nodes.head? = some textNode ∧
      t.selection = s.selection.moveToStartOf textNode ∧
      t.selection.isCollapsed = true ∧
      t.selection.anchorKey = textNode.key ∧
      t.selection.anchorOffset = 0 :=
  ⟨(split_characterization s t h).1, (split_characterization s t h).2.2.2⟩

/-- Example state for C5: one block holding HelloWorld with the cursor collapsed
at offset 5. -/
def c5State : State :=
  { document := ⟨[.container 1 [.text 2 [⟨"HelloWorld", []⟩]]]⟩, selection := ⟨2, 5, 2, 5⟩ }

/-- Expected result of split on the C5 example state: Hello and World blocks,
cursor collapsed at offset 0 of the fresh World leaf. -/
def c5After : State :=
  { document := ⟨[.container 1 [.text 2 [⟨"Hello", []⟩]],
                  .container 3 [.text 4 [⟨"World", []⟩]]]⟩,
    selection := ⟨4, 0, 4, 0⟩ }

/-- Witness for C5 at a concrete state. -/
theorem c5_witness :
    c5State.split = some c5After ∧
    c5After.document = c5State.document.splitAtRange c5State.selection :=
  ⟨rfl, (c5_split_spec c5State c5After rfl).1⟩

/-- C6: on an expanded selection, delete() returns a State whose document is
deleteAtRange(selection) and whose selection is the original selection moved to
its own start — collapsed exactly at the point where the removed range
began. -/
theorem c6_delete_expanded_spec (s : State) (h : s.selection.isExpanded = true) :
    (s.delete).document = s.document.deleteAtRange s.selection ∧
    (s.delete).selection = s.selection.moveToStart ∧
    (s.delete).selection.isCollapsed = true ∧
    (s.delete).selection.anchorKey = s.selection.startKey ∧
    (s.delete).selection.anchorOffset = s.selection.startOffset := by
  have hc : s.selection.isCollapsed = false := by
    simpa [Selection.isExpanded] using h
  have hne : ¬(s.selection.isCollapsed = true) := by simp [hc]
  unfold State.delete
  rw [if_neg hne]
  refine ⟨rfl, rfl, ?_, rfl, rfl⟩
  simp [Selection.moveToStart, Selection.isCollapsed]

/-- Example state for C6: text abc with the selection spanning offsets 1 to 2. -/
def c6State : State :=
  { document := ⟨[.container 1 [.text 2 [⟨"abc", []⟩]]]⟩, selection := ⟨2, 1, 2, 2⟩ }

/-- Witness for C6 at a concrete state. -/
theorem c6_witness :
    c6State.selection.isExpanded = true ∧
    (c6State.delete).document = c6State.document.deleteAtRange c6State.selection :=
  ⟨rfl, (c6_delete_expanded_spec c6State rfl).1⟩

/-- C7: on a collapsed selection, delete() is the identity: the returned State
is the original state, document and selection unchanged, with no Document
mutation applied. -/
theorem c7_delete_collapsed_identity (s : State) (h : s.selection.isCollapsed = true) :
    s.delete = s := by
  simp [State.delete, h]

/-- Example state for C7: text abc with the cursor collapsed at offset 1. -/
def c7State : State :=
  { document := ⟨[.container 1 [.text 2 [⟨"abc", []⟩]]]⟩, selection := ⟨2, 1, 2, 1⟩ }

/-- Witness for C7 at a concrete state. -/
theorem c7_witness : c7State.delete = c7State :=
  c7_delete_collapsed_identity c7State rfl

/-- C8: each of the five document-like passthrough methods applies the
same-named Document operation to the state's document with the caller-supplied
arguments and returns the state with only the document field replaced, the
selection left untouched. -/
theorem c8_passthroughs_spec (s : State) (range : Selection) (n : Nat) (text : String) :
    s.deleteAtRange range = { s with document := s.document.deleteAtRange range } ∧
    s.deleteBackwardAtRange range =
      { s with document := s.document.deleteBackwardAtRange range } ∧
    s.deleteForwardAtRange range n =
      { s with document := s.document.deleteForwardAtRange range n } ∧
    s.insertAtRange range text =
      { s with document := s.document.insertAtRange range text } ∧
    s.splitAtRange range = { s with document := s.document.splitAtRange range } :=
  ⟨rfl, rfl, rfl, rfl, rfl⟩

/-- C9: a State created via the factory with no field overrides has an empty
document, an empty selection, and a History of two empty stacks. -/
theorem c9_create_default :
    (State.create {}).document = Document.empty ∧
    (State.create {}).document.nodes = [] ∧
    (State.create {}).selection = Selection.empty ∧
    (State.create {}).history.undos = [] ∧
    (State.create {}).history.redos = [] :=
  ⟨rfl, rfl, rfl, rfl, rfl⟩

/-- C10: for every State, every editing method on State — delete,
deleteBackward, deleteForward, insertText, split, and the five range
passthroughs — returns a State whose history and isNative fields equal those of
the receiver.  The eight total methods are covered unconditionally at every
state; for the two fallible methods the conclusion covers every State they
return. -/
theorem c10_frame_preservation (s : State) (n : Nat) (text : String) (range : Selection) :
    (s.delete).history = s.history ∧ (s.delete).isNative = s.isNative ∧
    (∀ t, s.deleteBackward n = some t → t.history = s.history ∧ t.isNative = s.isNative) ∧
    (s.deleteForward n).history = s.history ∧ (s.deleteForward n).isNative = s.isNative ∧
    (s.insertText text).history = s.history ∧ (s.insertText text).isNative = s.isNative ∧
    (∀ t, s.split = some t → t.history = s.history ∧ t.isNative = s.isNative) ∧
    (s.deleteAtRange range).history = s.history ∧
    (s.deleteAtRange range).isNative = s.isNative ∧
    (s.deleteBackwardAtRange range).history = s.history ∧
    (s.deleteBackwardAtRange range).isNative = s.isNative ∧
    (s.deleteForwardAtRange range n).history = s.history ∧
    (s.deleteForwardAtRange range n).isNative = s.isNative ∧
    (s.insertAtRange range text).history = s.history ∧
    (s.insertAtRange range text).isNative = s.isNative ∧
    (s.splitAtRange range).history = s.history ∧
    (s.splitAtRange range).isNative = s.isNative := by
  refine ⟨?_, ?_, ?_, rfl, rfl, rfl, rfl, ?_,
    rfl, rfl, rfl, rfl, rfl, rfl, rfl, rfl, rfl, rfl⟩
  · unfold State.delete
    split <;> rfl
  · unfold State.delete
    split <;> rfl
  · intro t ht
    obtain ⟨-, hh, hi, -⟩ := deleteBackward_characterization s n t ht
    exact ⟨hh, hi⟩
  · intro t ht
    obtain ⟨-, hh, hi, -⟩ := split_characterization s t ht
    exact ⟨hh, hi⟩

/-- Example state for C10: the two-block Foo Bar document with the cursor
collapsed at offset 1 of Bar, where both deleteBackward and split succeed. -/
def c10State : State := { document := fooBarDoc, selection := ⟨4, 1, 4, 1⟩ }

/-- Expected result of deleteBackward on the C10 example state. -/
def c10t1 : State :=
  { document := ⟨[.container 1 [.text 2 [⟨"Foo", []⟩]], .container 3 [.text 4 [⟨"ar", []⟩]]]⟩,
    selection := ⟨4, 0, 4, 0⟩ }

/-- Expected result of split on the C10 example state. -/
def c10t2 : State :=
  { document := ⟨[.container 1 [.text 2 [⟨"Foo", []⟩]],
                  .container 3 [.text 4 [⟨"B", []⟩]],
                  .container 5 [.text 6 [⟨"ar", []⟩]]]⟩,
    selection := ⟨6, 0, 6, 0⟩ }

/-- Witness for C10 at a concrete state, instantiating the fallible-method
implications at the concrete results. -/
theorem c10_witness :
    c10State.deleteBackward 1 = some c10t1 ∧ c10State.split = some c10t2 ∧
    c10t1.history = c10State.history ∧ c10t1.isNative = c10State.isNative ∧
    c10t2.history = c10State.history ∧ c10t2.isNative = c10State.isNative ∧
    (c10State.delete).history = c10State.history := by
  obtain ⟨h1, h2, h3, h4, h5, h6, h7, h8, -⟩ :=
    c10_frame_preservation c10State 1 "x" Selection.empty
  obtain ⟨hb1, hb2⟩ := h3 c10t1 rfl
  obtain ⟨hs1, hs2⟩ := h8 c10t2 rfl
  exact ⟨rfl, rfl, hb1, hb2, hs1, hs2, h1⟩

end Slate
